import Mathlib

/-!
Shallow embedding of the core of `src/validators/api-validator.ts`
(OpenApi-Auto-Validator): example synthesis from schemas, path/query
parameter resolution, request-body building, response conformance
checking and the contract walker, together with theorems settling the
specification claims about them.

Conventions of the embedding:
* JavaScript `undefined` fields become `Option` fields (`none` = absent).
* JSON values are the inductive `Value`; JavaScript objects are ordered
  association lists `List (String × _)` with first-match lookup, which is
  how unique-keyed JS objects behave.
* The external Ajv evaluator is abstracted as a function
  `Schema → Value → List AjvError`; the empty list means "valid", a
  non-empty list models `validate.errors` being set (Ajv with
  `allErrors: true` always reports at least one error on invalidity).
* Machine numbers are modelled as `Rat` (JavaScript has a single number
  type); number-to-string conversion is modelled faithfully for the
  integral values the claims exercise.
-/

namespace OpenApiAutoValidator

/-- A JSON value (the `unknown` values flowing through the validator). -/
inductive Value : Type where
  | vNull : Value
  | vBool : Bool → Value
  | vNum : Rat → Value
  | vStr : String → Value
  | vArr : List Value → Value
  | vObj : List (String × Value) → Value
deriving Repr

/-- One Ajv violation record (`instancePath` and `message`). -/
structure AjvError : Type where
  instancePath : String
  message : String
deriving Repr, DecidableEq

/-- The fields of `OpenAPIV3.SchemaObject` that the validator reads:
`example`, `default`, `enum`, `type`, `format`, `minLength`, `minimum`,
`items`, `properties`, `required`. -/
inductive Schema : Type where
  | mk :
      Option Value →                     -- example
      Option Value →                     -- default
      Option (List Value) →              -- enum
      Option String →                    -- type
      Option String →                    -- format
      Option Nat →                       -- minLength
      Option Rat →                       -- minimum
      Option Schema →                    -- items
      Option (List (String × Schema)) →  -- properties
      Option (List String) →             -- required
      Schema
deriving Repr

/-- The schema's `example` field (`example` is a Lean keyword). -/
def Schema.exampleVal : Schema → Option Value
  | .mk e _ _ _ _ _ _ _ _ _ => e

def Schema.default : Schema → Option Value
  | .mk _ d _ _ _ _ _ _ _ _ => d

def Schema.enumVals : Schema → Option (List Value)
  | .mk _ _ en _ _ _ _ _ _ _ => en

def Schema.type : Schema → Option String
  | .mk _ _ _ t _ _ _ _ _ _ => t

def Schema.format : Schema → Option String
  | .mk _ _ _ _ f _ _ _ _ _ => f

def Schema.minLength : Schema → Option Nat
  | .mk _ _ _ _ _ ml _ _ _ _ => ml

def Schema.minimum : Schema → Option Rat
  | .mk _ _ _ _ _ _ mn _ _ _ => mn

def Schema.items : Schema → Option Schema
  | .mk _ _ _ _ _ _ _ it _ _ => it

def Schema.properties : Schema → Option (List (String × Schema))
  | .mk _ _ _ _ _ _ _ _ pr _ => pr

def Schema.required : Schema → Option (List String)
  | .mk _ _ _ _ _ _ _ _ _ rq => rq

/-- The abstract external schema-conformance evaluator (Ajv):
empty error list = valid. -/
abbrev AjvFn : Type := Schema → Value → List AjvError

mutual

/-- `generateExampleFromSchema` (api-validator.ts lines 185-222). -/
def generateExampleFromSchema : Schema → Value
  | .mk ex df en ty fm ml mn it pr rq =>
    match ex with
    | some v => v
    | none =>
      match df with
      | some v => v
      | none =>
        match en with
        | some (v :: _) => v
        | _ =>
          if ty = some "string" then
            if fm = some "date" then .vStr "2024-01-01"
            else if fm = some "date-time" then .vStr "2024-01-01T00:00:00Z"
            else if fm = some "email" then .vStr "test@example.com"
            else if fm = some "uuid" then .vStr "550e8400-e29b-41d4-a716-446655440000"
            else if fm = some "uri" then .vStr "https://example.com"
            else
              -- JS `if (schema.minLength)`: 0 is falsy, so minLength 0
              -- behaves like an absent minLength.
              match ml with
              | some n =>
                if n ≠ 0 then .vStr (String.mk (List.replicate n 'x'))
                else .vStr "string"
              | none => .vStr "string"
          else if ty = some "integer" then .vNum (mn.getD 1)
          else if ty = some "number" then .vNum (mn.getD 1)
          else if ty = some "boolean" then .vBool true
          else if ty = some "array" then
            match it with
            | some itemSchema => .vArr [generateExampleFromSchema itemSchema]
            | none => .vArr []
          else if ty = some "object" then
            match pr with
            | none => .vObj []
            | some props => .vObj (genProps (rq.getD []) props)
          else .vNull

/-- The property loop of `generateObjectExample` (api-validator.ts lines
227-243): synthesize only properties that are required or carry an
explicit example. -/
def genProps (req : List String) : List (String × Schema) → List (String × Value)
  | [] => []
  | (propName, prop) :: rest =>
    if req.contains propName || prop.exampleVal.isSome then
      (propName, generateExampleFromSchema prop) :: genProps req rest
    else
      genProps req rest

end

/-- `generateObjectExample` (api-validator.ts lines 227-243) as a
standalone function; `generateExampleFromSchema`'s object branch
computes exactly this. -/
def generateObjectExample (s : Schema) : List (String × Value) :=
  match s.properties with
  | none => []
  | some props => genProps (s.required.getD []) props

/-- First-match lookup in a string-keyed JS object modelled as an ordered
association list (`obj[key]`, `key in obj`). -/
def jsLookup {β : Type} (m : List (String × β)) (k : String) : Option β :=
  (m.find? (fun p => p.1 = k)).map (fun p => p.2)

/-- JS object property assignment `obj[k] = v`: overwrite in place when the
key exists (keeping its position), otherwise append. -/
def assocSet {β : Type} (m : List (String × β)) (k : String) (v : β) :
    List (String × β) :=
  if m.any (fun p => p.1 = k) then
    m.map (fun p => if p.1 = k then (k, v) else p)
  else
    m ++ [(k, v)]

/-- JS spread merge `\x7b...a, ...b\x7d`: assign each binding of `b` into `a`
in order. -/
def jsObjAssign {β : Type} (a b : List (String × β)) : List (String × β) :=
  b.foldl (fun m p => assocSet m p.1 p.2) a

/-- JS number-to-string conversion, modelled for the integral values the
claims exercise; non-integral rationals (unreachable in the claims) use
the `Rat` rendering. -/
def ratToString (q : Rat) : String :=
  if q.den = 1 then toString q.num else toString q

mutual

/-- JS `String(value)` stringification of a JSON value. -/
def jsToString : Value → String
  | .vNull => "null"
  | .vBool true => "true"
  | .vBool false => "false"
  | .vNum q => ratToString q
  | .vStr s => s
  | .vArr vs => String.intercalate "," (jsArrElems vs)
  | .vObj _ => "[object Object]"

/-- `Array.prototype.join(',')` element rendering: `null` becomes the
empty string. -/
def jsArrElems : List Value → List String
  | [] => []
  | .vNull :: rest => "" :: jsArrElems rest
  | v :: rest => jsToString v :: jsArrElems rest

end

/-- One entry of an OpenAPI `examples` object: `some v` when the example
object carries a `value` field, `none` when it does not. -/
abbrev ExampleEntry : Type := Option Value

/-- The fields of `OpenAPIV3.ParameterObject` that the validator reads.
The JS `in` field is `loc` here (`in` is a Lean keyword). -/
structure Parameter : Type where
  name : String
  loc : String
  required : Bool
  exampleVal : Option Value
  examples : Option (List ExampleEntry)
  schema : Option Schema
deriving Repr

/-- `getParameterExample` (api-validator.ts lines 155-180): direct
example, else first entry of the `examples` object when it has a `value`,
else schema example / default / type-directed synthesis, else
`undefined`. -/
def getParameterExample (param : Parameter) : Option Value :=
  match param.exampleVal with
  | some v => some v
  | none =>
    match param.examples with
    | some (some v :: _) => some v
    | _ =>
      match param.schema with
      | some schema =>
        match schema.exampleVal with
        | some v => some v
        | none =>
          match schema.default with
          | some v => some v
          | none => some (generateExampleFromSchema schema)
      | none => none

/-- The placeholder names matched by `path.match(/\x7b([^}]+)\x7d/g)`
(with braces stripped as in `match.slice(1, -1)`): scan left to right,
a match is a brace-enclosed non-empty run of non-brace characters. -/
def extractPlaceholders : List Char → List String
  | [] => []
  | c :: rest =>
    if c = '{' then
      let content := rest.takeWhile (fun d => d ≠ '}')
      let afterContent := rest.dropWhile (fun d => d ≠ '}')
      if content.isEmpty then
        extractPlaceholders rest
      else if afterContent.isEmpty then
        []
      else
        String.mk content :: extractPlaceholders (afterContent.drop 1)
    else
      extractPlaceholders rest
termination_by l => l.length
decreasing_by
  · simp
  · simp only [List.length_drop, List.length_cons]
    have h := (List.dropWhile_sublist (l := rest) (p := fun d => d ≠ '}')).length_le
    omega
  · simp

/-- `String.prototype.replace(search, repl)` with a string search pattern:
replace the first occurrence only. -/
def replaceFirst (search repl : List Char) : List Char → List Char
  | [] => if search.isPrefixOf ([] : List Char) then repl else []
  | c :: rest =>
    if search.isPrefixOf (c :: rest) then
      repl ++ (c :: rest).drop search.length
    else
      c :: replaceFirst search repl rest

def placeholdersOf (path : String) : List String :=
  extractPlaceholders path.toList

def replaceFirstStr (s search repl : String) : String :=
  String.mk (replaceFirst search.toList repl.toList s.toList)

/-- The fields of `OpenAPIV3.MediaTypeObject` that the validator reads. -/
structure MediaType : Type where
  exampleVal : Option Value
  examples : Option (List ExampleEntry)
  schema : Option Schema
deriving Repr

/-- `OpenAPIV3.RequestBodyObject` (only `content` is read). -/
structure RequestBody : Type where
  content : Option (List (String × MediaType))
deriving Repr

/-- The fields of `OpenAPIV3.HeaderObject` that the validator reads. -/
structure HeaderObject : Type where
  required : Bool
  schema : Option Schema
deriving Repr

/-- The fields of `OpenAPIV3.ResponseObject` that the validator reads. -/
structure ResponseObject : Type where
  headers : Option (List (String × HeaderObject))
  content : Option (List (String × MediaType))
deriving Repr

/-- The fields of `OpenAPIV3.OperationObject` that the validator reads;
`responses` is the JS object mapping response selectors ("200", "4XX",
"default") to response specs. -/
structure Operation : Type where
  parameters : Option (List Parameter)
  requestBody : Option RequestBody
  responses : Option (List (String × ResponseObject))
deriving Repr

/-- An `OpenAPIV3.PathItemObject`: one optional operation per tested
method, plus path-item-level parameters. -/
structure PathItem : Type where
  get : Option Operation
  post : Option Operation
  put : Option Operation
  patch : Option Operation
  delete : Option Operation
  parameters : Option (List Parameter)
deriving Repr

/-- Result record of `resolvePath`. -/
structure ResolvePathResult : Type where
  resolvedPath : String
  skipped : Bool
  skipReason : Option String
deriving Repr, DecidableEq

/-- `[...(pathItem.parameters || []), ...(operation.parameters || [])]`
(api-validator.ts lines 120 and 312). -/
def combinedParameters (operation : Operation) (pathItem : PathItem) :
    List Parameter :=
  pathItem.parameters.getD [] ++ operation.parameters.getD []

/-- The `allParameters.find(...)` of `resolvePath` (api-validator.ts lines
124-126): first parameter with the given name declared `in: path`. -/
def findPathParam (allParameters : List Parameter) (paramName : String) :
    Option Parameter :=
  allParameters.find? (fun p => p.name == paramName && p.loc == "path")

/-- The placeholder loop of `resolvePath` (api-validator.ts lines
122-147), threading the partially substituted path. -/
def resolvePathAux (path : String) (allParameters : List Parameter) :
    List String → String → ResolvePathResult
  | [], acc => ⟨acc, false, none⟩
  | paramName :: rest, acc =>
    match findPathParam allParameters paramName with
    | none =>
      ⟨path, true, some ("Missing path parameter definition: " ++ paramName)⟩
    | some param =>
      match getParameterExample param with
      | none =>
        ⟨path, true, some ("No example value for path parameter: " ++ paramName)⟩
      | some v =>
        resolvePathAux path allParameters rest
          (replaceFirstStr acc ("\x7b" ++ paramName ++ "\x7d") (jsToString v))

/-- `resolvePath` (api-validator.ts lines 109-150). -/
def resolvePath (path : String) (operation : Operation) (pathItem : PathItem) :
    ResolvePathResult :=
  match placeholdersOf path with
  | [] => ⟨path, false, none⟩
  | placeholders =>
    resolvePathAux path (combinedParameters operation pathItem) placeholders path

/-- One iteration of the `buildQueryParams` loop (api-validator.ts lines
314-325): include a query parameter only when it is required or carries a
direct example, and an example value is obtainable. -/
def queryParamStep (params : List (String × String)) (param : Parameter) :
    List (String × String) :=
  if param.loc == "query" then
    if param.required || param.exampleVal.isSome then
      match getParameterExample param with
      | some v => assocSet params param.name (jsToString v)
      | none => params
    else params
  else params

/-- `buildQueryParams` (api-validator.ts lines 307-328). -/
def buildQueryParams (operation : Operation) (pathItem : PathItem) :
    List (String × String) :=
  (combinedParameters operation pathItem).foldl queryParamStep []

/-- `extractBodyExample` (api-validator.ts lines 282-302). -/
def extractBodyExample (mediaType : MediaType) : Value :=
  match mediaType.exampleVal with
  | some v => v
  | none =>
    match mediaType.examples with
    | some (some v :: _) => v
    | _ =>
      match mediaType.schema with
      | some schema => generateExampleFromSchema schema
      | none => .vObj []

/-- Result of `buildRequestBody`. -/
structure BodyData : Type where
  body : Value
  contentType : String
deriving Repr

/-- `buildRequestBody` (api-validator.ts lines 248-277): prefer
`application/json`, then `application/x-www-form-urlencoded`. -/
def buildRequestBody (operation : Operation) : Option BodyData :=
  match operation.requestBody with
  | none => none
  | some requestBody =>
    match requestBody.content with
    | none => none
    | some content =>
      match jsLookup content "application/json" with
      | some jsonContent => some ⟨extractBodyExample jsonContent, "application/json"⟩
      | none =>
        match jsLookup content "application/x-www-form-urlencoded" with
        | some formContent =>
          some ⟨extractBodyExample formContent, "application/x-www-form-urlencoded"⟩
        | none => none

/-- The wildcard selector `` `${statusStr[0]}XX` `` built from the status
string (JS renders `undefined` for the first character of an empty
string; unreachable since `toString` of a number is never empty). -/
def wildcardKey (statusStr : String) : String :=
  match statusStr.toList with
  | c :: _ => String.mk [c] ++ "XX"
  | [] => "undefinedXX"

/-- `getResponseSpec` (api-validator.ts lines 505-518): exact selector,
else status-class wildcard, else `"default"`; `null` when none match. -/
def getResponseSpec (statusCode : Nat) (operation : Operation) :
    Option ResponseObject :=
  match operation.responses with
  | none => none
  | some responses =>
    let statusStr := toString statusCode
    ((jsLookup responses statusStr).orElse fun _ =>
      (jsLookup responses (wildcardKey statusStr)).orElse fun _ =>
        jsLookup responses "default")

/-- `validateStatusCode` (api-validator.ts lines 479-500). -/
def validateStatusCode (statusCode : Nat) (operation : Operation) :
    Bool × Option String :=
  match operation.responses with
  | none => (true, none)
  | some responses =>
    let statusStr := toString statusCode
    let hasExactMatch := (jsLookup responses statusStr).isSome
    let hasWildcardMatch := (jsLookup responses (wildcardKey statusStr)).isSome
    let hasDefaultMatch := (jsLookup responses "default").isSome
    if !hasExactMatch && !hasWildcardMatch && !hasDefaultMatch then
      (false, some ("Unexpected status code " ++ toString statusCode ++
        " - not defined in spec"))
    else
      (true, none)

/-- A `HeaderValidationError` record (api-validator.ts lines 13-16). -/
structure HeaderValidationError : Type where
  header : String
  message : String
deriving Repr, DecidableEq

/-- JS `String.prototype.toLowerCase()`, modelled as per-character
lowercasing. -/
def jsToLowerCase (s : String) : String :=
  String.mk (s.data.map Char.toLower)

/-- The received-header lookup of `validateResponseHeaders`
(api-validator.ts line 535): the declared name is lowercased before the
lookup in the received header map. -/
def headerLookup (headers : List (String × Value)) (headerName : String) :
    Option Value :=
  jsLookup headers (jsToLowerCase headerName)

/-- The declared-header loop of `validateResponseHeaders`
(api-validator.ts lines 533-559); `ajv` abstracts the external evaluator,
empty error list = valid. -/
def headerErrorsLoop (ajv : AjvFn) (headers : List (String × Value)) :
    List (String × HeaderObject) → List HeaderValidationError
  | [] => []
  | (headerName, spec) :: rest =>
    let headerValue := headerLookup headers headerName
    if spec.required && headerValue.isNone then
      ⟨headerName, "Required header is missing"⟩ :: headerErrorsLoop ajv headers rest
    else
      match headerValue, spec.schema with
      | some v, some schema =>
        let errs := ajv schema v
        if !errs.isEmpty then
          ⟨headerName, String.intercalate ", " (errs.map (fun e => e.message))⟩ ::
            headerErrorsLoop ajv headers rest
        else
          headerErrorsLoop ajv headers rest
      | _, _ => headerErrorsLoop ajv headers rest

/-- `validateResponseHeaders` (api-validator.ts lines 523-565). -/
def validateResponseHeaders (ajv : AjvFn) (headers : List (String × Value))
    (responseSpec : ResponseObject) : Bool × List HeaderValidationError :=
  match responseSpec.headers with
  | none => (true, [])
  | some declared =>
    let errors := headerErrorsLoop ajv headers declared
    (errors.isEmpty, errors)

/-- `validateResponseBody` (api-validator.ts lines 570-604). -/
def validateResponseBody (ajv : AjvFn) (responseData : Value)
    (responseSpec : ResponseObject) : Bool × Option (List String) :=
  match responseSpec.content with
  | none => (true, none)
  | some content =>
    match jsLookup content "application/json" with
    | none => (true, none)
    | some jsonContent =>
      match jsonContent.schema with
      | none => (true, none)
      | some schema =>
        let errs := ajv schema responseData
        if !errs.isEmpty then
          (false, some (errs.map (fun err =>
            "Body " ++ (if err.instancePath.isEmpty then "root" else err.instancePath) ++
              ": " ++ err.message)))
        else
          (true, none)

/-- Result record of `validateFullResponse`. -/
structure FullValidation : Type where
  valid : Bool
  error : Option String
  details : Option (List String)
deriving Repr, DecidableEq

/-- `validateFullResponse` (api-validator.ts lines 427-474): status,
header and body checks with accumulated detail strings. -/
def validateFullResponse (ajv : AjvFn) (status : Nat)
    (respHeaders : List (String × Value)) (respData : Value)
    (operation : Operation) : FullValidation :=
  match operation.responses with
  | none => ⟨true, none, none⟩
  | some _ =>
    let statusValidation := validateStatusCode status operation
    let hasErrors1 := !statusValidation.1
    let details1 : List String :=
      if !statusValidation.1 then
        match statusValidation.2 with
        | some e => [e]
        | none => []
      else []
    match getResponseSpec status operation with
    | none =>
      ⟨!hasErrors1,
       if hasErrors1 then some "Response validation failed" else none,
       if details1.isEmpty then none else some details1⟩
    | some responseSpec =>
      let headerValidation := validateResponseHeaders ajv respHeaders responseSpec
      let hasErrors2 := hasErrors1 || !headerValidation.1
      let details2 := details1 ++
        (if !headerValidation.1 then
          headerValidation.2.map (fun e =>
            "Header '" ++ e.header ++ "': " ++ e.message)
        else [])
      let bodyValidation := validateResponseBody ajv respData responseSpec
      let hasErrors3 := hasErrors2 || !bodyValidation.1
      let details3 := details2 ++
        (if !bodyValidation.1 then
          match bodyValidation.2 with
          | some ds => ds
          | none => []
        else [])
      ⟨!hasErrors3,
       if hasErrors3 then some "Response validation failed" else none,
       if details3.isEmpty then none else some details3⟩

/-- The parts of the axios request configuration that `testEndpoint`
computes (api-validator.ts lines 361-380). -/
structure RequestConfig : Type where
  method : String
  url : String
  headers : List (String × String)
  params : Option (List (String × String))
  data : Option Value
deriving Repr

/-- The request-configuration construction of `testEndpoint`
(api-validator.ts lines 353-380): base headers plus `Accept`, query
parameters when non-empty, and body plus `Content-Type` only for
POST/PUT/PATCH when a body was built. -/
def buildRequestConfig (baseUrl : String) (userHeaders : List (String × String))
    (method : String) (operation : Operation) (pathItem : PathItem)
    (resolvedPath : String) : RequestConfig :=
  let url := baseUrl ++ resolvedPath
  let queryParams := buildQueryParams operation pathItem
  let requestBodyData := buildRequestBody operation
  let config : RequestConfig :=
    { method := method
      url := url
      headers := jsObjAssign userHeaders [("Accept", "application/json")]
      params := if queryParams.length > 0 then some queryParams else none
      data := none }
  match requestBodyData with
  | some bodyData =>
    if ["post", "put", "patch"].contains method then
      { config with
          data := some bodyData.body
          headers := jsObjAssign config.headers [("Content-Type", bodyData.contentType)] }
    else config
  | none => config

/-- An `ApiValidationResult` record (types.ts). -/
structure ApiValidationResult : Type where
  path : String
  method : String
  valid : Bool
  statusCode : Option Nat
  responseTime : Nat
  error : Option String
  details : Option (List String)
deriving Repr, DecidableEq

/-- A dereferenced contract document: `paths` maps path templates to
(possibly null) path items; `none` models an absent `paths` field
(JS falsy), `some []` a present-but-empty `paths` object. -/
structure Document : Type where
  paths : Option (List (String × Option PathItem))
deriving Repr

/-- The synthetic verdict returned when the document declares no `paths`
field (api-validator.ts lines 55-65). -/
def noPathsResult : ApiValidationResult :=
  ⟨"/", "get", false, none, 0, some "No paths defined in specification", none⟩

/-- The fixed method order of the walker (api-validator.ts line 75). -/
def methodsList : List String := ["get", "post", "put", "patch", "delete"]

/-- Method-keyed operation lookup on a path item
(`pathItem[method]`, api-validator.ts lines 78-80). -/
def PathItem.op (pathItem : PathItem) (method : String) : Option Operation :=
  if method = "get" then pathItem.get
  else if method = "post" then pathItem.post
  else if method = "put" then pathItem.put
  else if method = "patch" then pathItem.patch
  else if method = "delete" then pathItem.delete
  else none

/-- The walking loop of `validate` (api-validator.ts lines 55-89), with
the per-endpoint test abstracted as `test` (it performs the HTTP
exchange): synthetic verdict when `paths` is absent, else iterate the
(optionally filtered) path entries and the five methods in order. -/
def validateWalk
    (test : String → String → Operation → Document → PathItem → ApiValidationResult)
    (api : Document) (endpoints : Option (List String)) :
    List ApiValidationResult :=
  match api.paths with
  | none => [noPathsResult]
  | some paths =>
    let pathsToTest :=
      match endpoints with
      | some eps =>
        paths.filter (fun (entry : String × Option PathItem) => eps.contains entry.1)
      | none => paths
    pathsToTest.foldl
      (fun (results : List ApiValidationResult) (entry : String × Option PathItem) =>
        match entry.2 with
        | none => results
        | some pathItem =>
          methodsList.foldl
            (fun (rs : List ApiValidationResult) (method : String) =>
              match pathItem.op method with
              | some operation => rs ++ [test entry.1 method operation api pathItem]
              | none => rs)
            results)
      []

/-! ## Theorems about example synthesis -/

/-- The schema types with a type-directed synthesis rule. -/
def recognizedTypes : List String :=
  ["string", "integer", "number", "boolean", "array", "object"]

/-- The string formats with a canonical literal. -/
def recognizedFormats : List String :=
  ["date", "date-time", "email", "uuid", "uri"]

/-- C5: example synthesis applies its rules top to bottom with the first
applicable rule winning — explicit example first, else explicit default,
else the first enumerated value when the enumeration is non-empty, and
for schemas of unrecognized type (after those three rules) the result is
null rather than a failure. -/
theorem C5_synthesis_precedence (s : Schema) :
    (∀ v, s.exampleVal = some v → generateExampleFromSchema s = v) ∧
    (s.exampleVal = none → ∀ v, s.default = some v →
      generateExampleFromSchema s = v) ∧
    (s.exampleVal = none → s.default = none →
      ∀ v rest, s.enumVals = some (v :: rest) →
        generateExampleFromSchema s = v) ∧
    (s.exampleVal = none → s.default = none →
      (s.enumVals = none ∨ s.enumVals = some []) →
      (∀ t, s.type = some t → t ∉ recognizedTypes) →
        generateExampleFromSchema s = .vNull) := by
  obtain ⟨ex, df, en, ty, fm, ml, mn, it, pr, rq⟩ := s
  simp only [Schema.exampleVal, Schema.default, Schema.enumVals, Schema.type]
  refine ⟨?_, ?_, ?_, ?_⟩
  · intro v hv
    subst hv
    simp [generateExampleFromSchema]
  · intro hex v hv
    subst hex hv
    simp [generateExampleFromSchema]
  · intro hex hdf v rest hv
    subst hex hdf hv
    simp [generateExampleFromSchema]
  · intro hex hdf hen hty
    subst hex hdf
    rcases hen with hen | hen <;> subst hen <;>
      rw [generateExampleFromSchema.eq_def] <;> dsimp only <;> split_ifs <;>
        first
        | rfl
        | exact absurd (show ("string" : String) ∈ recognizedTypes by
            simp [recognizedTypes]) (hty "string" (by assumption))
        | exact absurd (show ("integer" : String) ∈ recognizedTypes by
            simp [recognizedTypes]) (hty "integer" (by assumption))
        | exact absurd (show ("number" : String) ∈ recognizedTypes by
            simp [recognizedTypes]) (hty "number" (by assumption))
        | exact absurd (show ("boolean" : String) ∈ recognizedTypes by
            simp [recognizedTypes]) (hty "boolean" (by assumption))
        | exact absurd (show ("array" : String) ∈ recognizedTypes by
            simp [recognizedTypes]) (hty "array" (by assumption))
        | exact absurd (show ("object" : String) ∈ recognizedTypes by
            simp [recognizedTypes]) (hty "object" (by assumption))

/-- C5 witness: the four precedence rules at concrete schemas. -/
theorem C5_synthesis_precedence_witness :
    generateExampleFromSchema
      (.mk (some (.vStr "E")) (some (.vStr "D")) none (some "string") none none none none none none) =
      .vStr "E" ∧
    generateExampleFromSchema
      (.mk none (some (.vStr "D")) (some [.vStr "0"]) (some "string") none none none none none none) =
      .vStr "D" ∧
    generateExampleFromSchema
      (.mk none none (some [.vNum 7, .vNum 8]) (some "integer") none none none none none none) =
      .vNum 7 ∧
    generateExampleFromSchema
      (.mk none none none (some "banana") none none none none none none) = .vNull :=
  ⟨(C5_synthesis_precedence
      (.mk (some (.vStr "E")) (some (.vStr "D")) none (some "string") none none none none none none)).1
      _ rfl,
   (C5_synthesis_precedence
      (.mk none (some (.vStr "D")) (some [.vStr "0"]) (some "string") none none none none none none)).2.1
      rfl _ rfl,
   (C5_synthesis_precedence
      (.mk none none (some [.vNum 7, .vNum 8]) (some "integer") none none none none none none)).2.2.1
      rfl rfl _ _ rfl,
   (C5_synthesis_precedence
      (.mk none none none (some "banana") none none none none none none)).2.2.2
      rfl rfl (Or.inl rfl)
      (by intro t ht; cases ht; simp [recognizedTypes])⟩

/-- Membership in the synthesized property list: a binding appears iff
some declared property with that name is required or carries an explicit
example, and its value is the recursive synthesis of that property. -/
theorem genProps_mem (req : List String) (props : List (String × Schema))
    (name : String) (v : Value) :
    (name, v) ∈ genProps req props ↔
      ∃ prop, (name, prop) ∈ props ∧
        (req.contains name || prop.exampleVal.isSome) = true ∧
        v = generateExampleFromSchema prop := by
  induction props with
  | nil => simp [genProps]
  | cons hd tl ih =>
    obtain ⟨n, p⟩ := hd
    rw [genProps.eq_def]
    dsimp only
    by_cases hc : (req.contains n || p.exampleVal.isSome) = true
    · rw [if_pos hc]
      simp only [List.mem_cons, ih]
      constructor
      · rintro (heq | ⟨prop, hp, hcond, hval⟩)
        · simp only [Prod.mk.injEq] at heq
          obtain ⟨h1, h2⟩ := heq
          subst h1
          exact ⟨p, Or.inl rfl, hc, h2⟩
        · exact ⟨prop, Or.inr hp, hcond, hval⟩
      · rintro ⟨prop, heq | hp', hcond, hval⟩
        · simp only [Prod.mk.injEq] at heq
          obtain ⟨h1, h2⟩ := heq
          subst h1 h2 hval
          exact Or.inl rfl
        · exact Or.inr ⟨prop, hp', hcond, hval⟩
    · rw [if_neg hc]
      simp only [List.mem_cons, ih]
      constructor
      · rintro ⟨prop, hp, hcond, hval⟩
        exact ⟨prop, Or.inr hp, hcond, hval⟩
      · rintro ⟨prop, heq | hp', hcond, hval⟩
        · simp only [Prod.mk.injEq] at heq
          obtain ⟨h1, h2⟩ := heq
          subst h1 h2
          exact absurd hcond hc
        · exact ⟨prop, hp', hcond, hval⟩

/-- C6: the synthesized value of an object schema contains exactly the
declared properties that are required or individually carry an explicit
example, each synthesized recursively; a property absent from both is
never included. -/
theorem C6_object_minimal_properties (s : Schema) (name : String) :
    ((∃ v, (name, v) ∈ generateObjectExample s) ↔
      ∃ prop, (name, prop) ∈ s.properties.getD [] ∧
        ((s.required.getD []).contains name || prop.exampleVal.isSome) = true) ∧
    (∀ v, (name, v) ∈ generateObjectExample s →
      ∃ prop, (name, prop) ∈ s.properties.getD [] ∧
        ((s.required.getD []).contains name || prop.exampleVal.isSome) = true ∧
        v = generateExampleFromSchema prop) := by
  unfold generateObjectExample
  rcases hp : s.properties with _ | props
  · simp
  · dsimp only
    constructor
    · constructor
      · rintro ⟨v, hv⟩
        obtain ⟨prop, h1, h2, _⟩ := (genProps_mem _ _ _ _).mp hv
        exact ⟨prop, h1, h2⟩
      · rintro ⟨prop, h1, h2⟩
        exact ⟨generateExampleFromSchema prop, (genProps_mem _ _ _ _).mpr ⟨prop, h1, h2, rfl⟩⟩
    · intro v hv
      exact (genProps_mem _ _ _ _).mp hv

/-- C6 witness: an object schema with a required property `a`, a
property `b` with an explicit example, and a property `c` with neither;
the synthesized object contains `a` and `b` but not `c`. -/
theorem C6_object_minimal_properties_witness :
    (∃ v, ("a", v) ∈ generateObjectExample
      (.mk none none none (some "object") none none none none
        (some [("a", .mk none none none (some "boolean") none none none none none none),
               ("b", .mk (some (.vNum 5)) none none (some "integer") none none none none none none),
               ("c", .mk none none none (some "boolean") none none none none none none)])
        (some ["a"]))) ∧
    ¬(∃ v, ("c", v) ∈ generateObjectExample
      (.mk none none none (some "object") none none none none
        (some [("a", .mk none none none (some "boolean") none none none none none none),
               ("b", .mk (some (.vNum 5)) none none (some "integer") none none none none none none),
               ("c", .mk none none none (some "boolean") none none none none none none)])
        (some ["a"]))) := by
  constructor
  · exact (C6_object_minimal_properties _ "a").1.mpr
      ⟨.mk none none none (some "boolean") none none none none none none,
        by simp [Schema.properties], by simp [Schema.required, Schema.exampleVal]⟩
  · intro hex
    obtain ⟨prop, hmem, hcond⟩ := (C6_object_minimal_properties _ "c").1.mp hex
    simp [Schema.properties] at hmem
    subst hmem
    simp [Schema.required, Schema.exampleVal] at hcond

/-- C8 counterexample: a plain string schema with `minLength: 0` (a set
minimum-length constraint) synthesizes the literal `"string"`, not a
filler string of exactly length 0 — the source guard `if
(schema.minLength)` treats 0 as falsy. -/
theorem C8_counterexample :
    generateExampleFromSchema
      (.mk none none none (some "string") none (some 0) none none none none) =
      .vStr "string" ∧
    generateExampleFromSchema
      (.mk none none none (some "string") none (some 0) none none none none) ≠
      .vStr (String.mk (List.replicate 0 'x')) := by
  have h0 : String.mk (List.replicate 0 'x') = "" := rfl
  constructor
  · rw [generateExampleFromSchema.eq_def]
    simp
  · rw [generateExampleFromSchema.eq_def]
    simp [h0]

/-- C8 amended: for a string schema with no explicit example, default or
enumeration and no recognized format, a positive minimum-length
constraint yields a filler string of exactly that length; an absent or
zero minimum-length constraint yields the literal `"string"`. -/
theorem C8_string_minlength (s : Schema)
    (hex : s.exampleVal = none) (hdf : s.default = none)
    (hen : s.enumVals = none ∨ s.enumVals = some [])
    (hty : s.type = some "string")
    (hfm : ∀ f, s.format = some f → f ∉ recognizedFormats) :
    (∀ n, s.minLength = some n → n ≠ 0 →
      generateExampleFromSchema s = .vStr (String.mk (List.replicate n 'x'))) ∧
    ((s.minLength = none ∨ s.minLength = some 0) →
      generateExampleFromSchema s = .vStr "string") := by
  obtain ⟨ex, df, en, ty, fm, ml, mn, it, pr, rq⟩ := s
  simp only [Schema.exampleVal, Schema.default, Schema.enumVals, Schema.type,
    Schema.format, Schema.minLength] at hex hdf hen hty hfm ⊢
  subst hex hdf hty
  have hne : ∀ f ∈ recognizedFormats, ¬(fm = some f) := by
    intro f hf h
    exact absurd hf (hfm f h)
  have key : generateExampleFromSchema
      (.mk none none en (some "string") fm ml mn it pr rq) =
      (match ml with
       | some n =>
         if n ≠ 0 then Value.vStr (String.mk (List.replicate n 'x'))
         else Value.vStr "string"
       | none => Value.vStr "string") := by
    rcases hen with hen | hen <;> subst hen <;>
      (rw [generateExampleFromSchema.eq_def]
       dsimp only
       rw [if_pos rfl, if_neg (hne "date" (by simp [recognizedFormats])),
           if_neg (hne "date-time" (by simp [recognizedFormats])),
           if_neg (hne "email" (by simp [recognizedFormats])),
           if_neg (hne "uuid" (by simp [recognizedFormats])),
           if_neg (hne "uri" (by simp [recognizedFormats]))])
  constructor
  · intro n hml hn
    rw [key, hml]
    simp [hn]
  · intro hml
    rcases hml with hml | hml <;> subst hml <;> rw [key] <;> simp

/-- C8 witness: `minLength: 3` yields `"xxx"`; no `minLength` yields
`"string"`. -/
theorem C8_string_minlength_witness :
    generateExampleFromSchema
      (.mk none none none (some "string") none (some 3) none none none none) =
      .vStr "xxx" ∧
    generateExampleFromSchema
      (.mk none none none (some "string") none none none none none none) =
      .vStr "string" :=
  ⟨by
    have h := (C8_string_minlength
      (.mk none none none (some "string") none (some 3) none none none none)
      rfl rfl (Or.inl rfl) rfl (by intro f hf; cases hf)).1 3 rfl (by decide)
    simpa using h,
   (C8_string_minlength
      (.mk none none none (some "string") none none none none none none)
      rfl rfl (Or.inl rfl) rfl (by intro f hf; cases hf)).2 (Or.inl rfl)⟩

/-! ## Theorems about parameter resolution -/

/-- C1 counterexample: with a path-item-level `id` path parameter whose
example is `"A"` and an operation-level `id` path parameter whose example
is `"B"`, resolution substitutes `"A"` — the path-item-level declaration
is used, not the operation-level one, because the combined array places
path-item parameters first and `find` returns the first match. -/
theorem C1_counterexample :
    resolvePath "/users/{id}"
      ⟨some [⟨"id", "path", false, some (.vStr "B"), none, none⟩], none, none⟩
      ⟨none, none, none, none, none,
        some [⟨"id", "path", false, some (.vStr "A"), none, none⟩]⟩ =
      ⟨"/users/A", false, none⟩ ∧
    ("/users/A" : String) ≠ "/users/B" := by
  constructor
  · simp [resolvePath, placeholdersOf, extractPlaceholders, resolvePathAux,
      combinedParameters, findPathParam, getParameterExample, replaceFirstStr,
      replaceFirst, jsToString, List.isPrefixOf]
  · decide

/-- C1 amended: the declaration used for a path placeholder is the first
match in the concatenation of path-item-level parameters followed by
operation-level parameters, so on a name collision the path-item-level
declaration takes precedence over the operation-level one. -/
theorem C1_pathitem_params_shadow (operation : Operation) (pathItem : PathItem)
    (paramName : String) (p : Parameter)
    (h : findPathParam (pathItem.parameters.getD []) paramName = some p) :
    findPathParam (combinedParameters operation pathItem) paramName = some p := by
  unfold findPathParam at h ⊢
  unfold combinedParameters
  rw [List.find?_append, h]
  rfl

/-- C1 witness: the shadowing rule applied to the counterexample's
operation and path item. -/
theorem C1_pathitem_params_shadow_witness :
    findPathParam
      (combinedParameters
        ⟨some [⟨"id", "path", false, some (.vStr "B"), none, none⟩], none, none⟩
        ⟨none, none, none, none, none,
          some [⟨"id", "path", false, some (.vStr "A"), none, none⟩]⟩)
      "id" = some ⟨"id", "path", false, some (.vStr "A"), none, none⟩ :=
  C1_pathitem_params_shadow _ _ _ _ rfl

/-- A placeholder can be filled from a parameter list exactly when a
matching `in: path` declaration exists and yields an example value. -/
def placeholderResolvable (allParameters : List Parameter) (paramName : String) :
    Bool :=
  ((findPathParam allParameters paramName).bind getParameterExample).isSome

/-- The resolution loop skips exactly when some placeholder in the list
cannot be filled. -/
theorem resolvePathAux_skipped_iff (path : String) (ps : List Parameter)
    (names : List String) (acc : String) :
    (resolvePathAux path ps names acc).skipped = true ↔
      ∃ n ∈ names, ¬placeholderResolvable ps n := by
  induction names generalizing acc with
  | nil => simp [resolvePathAux]
  | cons hd tl ih =>
    rcases hf : findPathParam ps hd with _ | p
    · simp [resolvePathAux, hf, placeholderResolvable]
    · rcases hg : getParameterExample p with _ | v
      · simp [resolvePathAux, hf, hg, placeholderResolvable]
      · simp [resolvePathAux, hf, hg, placeholderResolvable, ih]

/-- When every placeholder before `n` is fillable and `n` is not, the
resolution loop stops at `n` with the skip reason naming `n`: the
missing-declaration reason when no `in: path` declaration matches, the
no-example reason when a declaration matches but yields no value. -/
theorem resolvePathAux_first_unresolvable (path : String) (ps : List Parameter)
    (pre : List String) (n : String) (post : List String) (acc : String)
    (hpre : ∀ m ∈ pre, placeholderResolvable ps m) :
    (findPathParam ps n = none →
      resolvePathAux path ps (pre ++ n :: post) acc =
        ⟨path, true, some ("Missing path parameter definition: " ++ n)⟩) ∧
    (∀ p, findPathParam ps n = some p → getParameterExample p = none →
      resolvePathAux path ps (pre ++ n :: post) acc =
        ⟨path, true, some ("No example value for path parameter: " ++ n)⟩) := by
  induction pre generalizing acc with
  | nil =>
    constructor
    · intro hf
      simp [resolvePathAux, hf]
    · intro p hf hg
      simp [resolvePathAux, hf, hg]
  | cons hd tl ih =>
    have hhd : placeholderResolvable ps hd := hpre hd (List.mem_cons_self ..)
    unfold placeholderResolvable at hhd
    rcases hf₀ : findPathParam ps hd with _ | p₀
    · rw [hf₀] at hhd
      simp at hhd
    · rcases hg₀ : getParameterExample p₀ with _ | v₀
      · rw [hf₀] at hhd
        simp [hg₀] at hhd
      · have step : resolvePathAux path ps ((hd :: tl) ++ n :: post) acc =
            resolvePathAux path ps (tl ++ n :: post)
              (replaceFirstStr acc ("\x7b" ++ hd ++ "\x7d") (jsToString v₀)) := by
          simp [resolvePathAux, hf₀, hg₀]
        rw [step]
        exact ih _ (fun m hm => hpre m (List.mem_cons_of_mem _ hm))

/-- The keys of a JS object are unchanged by overwriting an existing key
and extended by a fresh key. -/
theorem assocSet_mem_keys {β : Type} (m : List (String × β)) (k k' : String)
    (v : β) (h : k' ∈ (assocSet m k v).map Prod.fst) :
    k' ∈ m.map Prod.fst ∨ k' = k := by
  unfold assocSet at h
  split at h
  · left
    rw [List.map_map] at h
    rcases List.mem_map.mp h with ⟨a, ha, hk⟩
    by_cases heq : a.1 = k
    · simp only [Function.comp, heq, if_pos] at hk
      cases hk
      exact List.mem_map.mpr ⟨a, ha, heq⟩
    · simp only [Function.comp, heq, if_neg] at hk
      exact List.mem_map.mpr ⟨a, ha, hk⟩
  · rw [List.map_append] at h
    rcases List.mem_append.mp h with h1 | h2
    · exact Or.inl h1
    · simp at h2
      exact Or.inr h2

/-- A key added by one query-parameter step comes from a query parameter
that is required or carries a direct example and yields an example
value. -/
theorem queryParamStep_mem_keys (params : List (String × String))
    (param : Parameter) (name : String)
    (h : name ∈ (queryParamStep params param).map Prod.fst) :
    name ∈ params.map Prod.fst ∨
      (param.name = name ∧ param.loc = "query" ∧
        (param.required || param.exampleVal.isSome) = true ∧
        (getParameterExample param).isSome) := by
  unfold queryParamStep at h
  by_cases hq : (param.loc == "query") = true
  · rw [if_pos hq] at h
    by_cases hr : (param.required || param.exampleVal.isSome) = true
    · rw [if_pos hr] at h
      rcases hg : getParameterExample param with _ | v
      · rw [hg] at h
        exact Or.inl h
      · rw [hg] at h
        rcases assocSet_mem_keys _ _ _ _ h with h1 | h2
        · exact Or.inl h1
        · exact Or.inr ⟨h2.symm, by simpa using hq, hr, by simp [hg]⟩
    · rw [if_neg hr] at h
      exact Or.inl h
  · rw [if_neg hq] at h
    exact Or.inl h

/-- A key of the accumulated query-parameter map comes from the initial
map or from a qualifying query parameter of the list. -/
theorem queryFold_mem_keys (name : String) (ps : List Parameter)
    (init : List (String × String))
    (h : name ∈ (ps.foldl queryParamStep init).map Prod.fst) :
    name ∈ init.map Prod.fst ∨
      ∃ p ∈ ps, p.name = name ∧ p.loc = "query" ∧
        (p.required || p.exampleVal.isSome) = true ∧
        (getParameterExample p).isSome := by
  induction ps generalizing init with
  | nil => exact Or.inl h
  | cons hd tl ih =>
    rw [List.foldl_cons] at h
    rcases ih _ h with h1 | ⟨p, hp, hrest⟩
    · rcases queryParamStep_mem_keys _ _ _ h1 with h2 | h3
      · exact Or.inl h2
      · exact Or.inr ⟨hd, List.mem_cons_self .., h3⟩
    · exact Or.inr ⟨p, List.mem_cons_of_mem _ hp, hrest⟩

/-- Resolution with a non-empty placeholder list is the resolution
loop. -/
theorem resolvePath_eq_aux (path : String) (operation : Operation)
    (pathItem : PathItem) (l : List String) (hl : placeholdersOf path = l)
    (hne : l ≠ []) :
    resolvePath path operation pathItem =
      resolvePathAux path (combinedParameters operation pathItem) l path := by
  unfold resolvePath
  rw [hl]
  cases l with
  | nil => exact absurd rfl hne
  | cons a as => rfl

/-- C7: path resolution skips exactly when some placeholder cannot be
filled; the first unfillable placeholder determines the reason — the
missing-declaration message naming the placeholder when no `in: path`
declaration matches, the no-example message naming it when a declaration
matches but yields no value; and every key of the query-parameter map
comes from a query parameter that is required or carries an explicit
example (query parameters never produce a skip). -/
theorem C7_skip_policy (path : String) (operation : Operation)
    (pathItem : PathItem) :
    ((resolvePath path operation pathItem).skipped = true ↔
      ∃ n ∈ placeholdersOf path,
        ¬placeholderResolvable (combinedParameters operation pathItem) n) ∧
    (∀ pre n post, placeholdersOf path = pre ++ n :: post →
      (∀ m ∈ pre, placeholderResolvable (combinedParameters operation pathItem) m) →
      (findPathParam (combinedParameters operation pathItem) n = none →
        resolvePath path operation pathItem =
          ⟨path, true, some ("Missing path parameter definition: " ++ n)⟩) ∧
      (∀ p, findPathParam (combinedParameters operation pathItem) n = some p →
        getParameterExample p = none →
        resolvePath path operation pathItem =
          ⟨path, true, some ("No example value for path parameter: " ++ n)⟩)) ∧
    (∀ name, name ∈ (buildQueryParams operation pathItem).map Prod.fst →
      ∃ p ∈ combinedParameters operation pathItem,
        p.name = name ∧ p.loc = "query" ∧
        (p.required || p.exampleVal.isSome) = true ∧
        (getParameterExample p).isSome) := by
  refine ⟨?_, ?_, ?_⟩
  · rcases hp : placeholdersOf path with _ | ⟨hd, tl⟩
    · simp only [resolvePath, hp]
      simp
    · rw [resolvePath_eq_aux path operation pathItem (hd :: tl) hp (by simp),
        resolvePathAux_skipped_iff]
  · intro pre n post heq hpre
    rw [resolvePath_eq_aux path operation pathItem (pre ++ n :: post) heq
      (by simp)]
    exact resolvePathAux_first_unresolvable path _ pre n post path hpre
  · intro name h
    rcases queryFold_mem_keys name _ _ h with h1 | h2
    · simp at h1
    · exact h2

/-- C7 witness: a template with an undeclared placeholder skips with the
missing-declaration reason; a declared path parameter with no obtainable
example skips with the no-example reason; a concrete query-parameter map
key is traced back to a required query parameter. -/
theorem C7_skip_policy_witness :
    resolvePath "/a/{x}" ⟨none, none, none⟩
      ⟨none, none, none, none, none, none⟩ =
      ⟨"/a/{x}", true, some ("Missing path parameter definition: " ++ "x")⟩ ∧
    resolvePath "/a/{x}" ⟨some [⟨"x", "path", false, none, none, none⟩], none, none⟩
      ⟨none, none, none, none, none, none⟩ =
      ⟨"/a/{x}", true, some ("No example value for path parameter: " ++ "x")⟩ ∧
    (∃ p ∈ combinedParameters
        (⟨some [⟨"q", "query", true, none, none,
          some (.mk none none none (some "integer") none none none none none none)⟩],
          none, none⟩ : Operation)
        (⟨none, none, none, none, none, none⟩ : PathItem),
      p.name = "q" ∧ p.loc = "query" ∧
        (p.required || p.exampleVal.isSome) = true ∧
        (getParameterExample p).isSome) :=
  ⟨((C7_skip_policy "/a/{x}" ⟨none, none, none⟩
      ⟨none, none, none, none, none, none⟩).2.1 [] "x" []
      (by simp [placeholdersOf, extractPlaceholders])
      (by simp)).1 rfl,
   ((C7_skip_policy "/a/{x}" ⟨some [⟨"x", "path", false, none, none, none⟩], none, none⟩
      ⟨none, none, none, none, none, none⟩).2.1 [] "x" []
      (by simp [placeholdersOf, extractPlaceholders])
      (by simp)).2 ⟨"x", "path", false, none, none, none⟩ rfl rfl,
   (C7_skip_policy "/a/{x}"
      ⟨some [⟨"q", "query", true, none, none,
        some (.mk none none none (some "integer") none none none none none none)⟩],
        none, none⟩
      ⟨none, none, none, none, none, none⟩).2.2 "q"
      (by simp [buildQueryParams, combinedParameters, queryParamStep,
        getParameterExample, generateExampleFromSchema.eq_def, assocSet,
        Schema.exampleVal, Schema.default, jsToString, ratToString])⟩

/-! ## Theorems about response selection and the contract walk -/

/-- C2: the response spec for a status code is selected by trying the
exact selector, then the first-digit class wildcard, then `"default"`,
first match winning (and a single `Option` result means at most one
response spec per evaluation). -/
theorem C2_response_selector_priority (statusCode : Nat) (operation : Operation)
    (responses : List (String × ResponseObject))
    (hresp : operation.responses = some responses) :
    (∀ r, jsLookup responses (toString statusCode) = some r →
      getResponseSpec statusCode operation = some r) ∧
    (jsLookup responses (toString statusCode) = none →
      ∀ r, jsLookup responses (wildcardKey (toString statusCode)) = some r →
        getResponseSpec statusCode operation = some r) ∧
    (jsLookup responses (toString statusCode) = none →
      jsLookup responses (wildcardKey (toString statusCode)) = none →
        getResponseSpec statusCode operation = jsLookup responses "default") := by
  unfold getResponseSpec
  rw [hresp]
  refine ⟨?_, ?_, ?_⟩
  · intro r hr
    simp [hr, Option.orElse]
  · intro h1 r h2
    simp [h1, h2, Option.orElse]
  · intro h1 h2
    simp [h1, h2, Option.orElse]

/-- C2 witness: responses `{"404", "4XX", "default"}` — a live 404 takes
the exact entry, a live 403 the wildcard, a live 500 the default. -/
theorem C2_response_selector_priority_witness :
    getResponseSpec 404
      ⟨none, none, some [("404", ⟨none, none⟩), ("4XX", ⟨some [], none⟩),
        ("default", ⟨none, some []⟩)]⟩ = some ⟨none, none⟩ ∧
    getResponseSpec 403
      ⟨none, none, some [("404", ⟨none, none⟩), ("4XX", ⟨some [], none⟩),
        ("default", ⟨none, some []⟩)]⟩ = some ⟨some [], none⟩ ∧
    getResponseSpec 500
      ⟨none, none, some [("404", ⟨none, none⟩), ("4XX", ⟨some [], none⟩),
        ("default", ⟨none, some []⟩)]⟩ = some ⟨none, some []⟩ :=
  ⟨(C2_response_selector_priority 404 _
      [("404", ⟨none, none⟩), ("4XX", ⟨some [], none⟩), ("default", ⟨none, some []⟩)]
      rfl).1 _ rfl,
   (C2_response_selector_priority 403 _
      [("404", ⟨none, none⟩), ("4XX", ⟨some [], none⟩), ("default", ⟨none, some []⟩)]
      rfl).2.1 rfl _ rfl,
   ((C2_response_selector_priority 500 _
      [("404", ⟨none, none⟩), ("4XX", ⟨some [], none⟩), ("default", ⟨none, some []⟩)]
      rfl).2.2 rfl rfl).trans rfl⟩

/-- C4 counterexample: a document whose `paths` object is present but
empty (so no operations are declared) yields an empty verdict list, not
a single synthetic failed verdict — the synthetic verdict is only
produced when the `paths` field is absent altogether. -/
theorem C4_counterexample :
    validateWalk (fun p m _ _ _ => ⟨p, m, true, none, 0, none, none⟩)
      ⟨some []⟩ none = [] := rfl

/-- C4 amended: only when the document declares no `paths` field at all
does the walk return the single synthetic failed verdict; a
present-but-empty `paths` object produces an empty verdict list. -/
theorem C4_no_paths_synthetic_verdict
    (test : String → String → Operation → Document → PathItem → ApiValidationResult)
    (endpoints : Option (List String)) :
    validateWalk test ⟨none⟩ endpoints = [noPathsResult] ∧
    validateWalk test ⟨some []⟩ endpoints = [] ∧
    noPathsResult.valid = false ∧
    noPathsResult.error = some "No paths defined in specification" := by
  refine ⟨rfl, ?_, rfl, rfl⟩
  cases endpoints <;> rfl

/-- The violation strings of the status-code check alone. -/
def statusViolations (status : Nat) (operation : Operation) : List String :=
  if (validateStatusCode status operation).1 then []
  else
    match (validateStatusCode status operation).2 with
    | some e => [e]
    | none => []

/-- The violation strings of the header check against the matched
response spec (none matched: nothing to check). -/
def headerViolations (ajv : AjvFn) (status : Nat)
    (respHeaders : List (String × Value)) (operation : Operation) :
    List String :=
  match getResponseSpec status operation with
  | none => []
  | some responseSpec =>
    (validateResponseHeaders ajv respHeaders responseSpec).2.map
      (fun e => "Header '" ++ e.header ++ "': " ++ e.message)

/-- The violation strings of the body check against the matched response
spec (none matched: nothing to check). -/
def bodyViolations (ajv : AjvFn) (status : Nat) (respData : Value)
    (operation : Operation) : List String :=
  match getResponseSpec status operation with
  | none => []
  | some responseSpec =>
    if (validateResponseBody ajv respData responseSpec).1 then []
    else (validateResponseBody ajv respData responseSpec).2.getD []

/-- The status check returns either a clean verdict or a single message. -/
theorem validateStatusCode_shape (status : Nat) (operation : Operation) :
    validateStatusCode status operation = (true, none) ∨
      ∃ e, validateStatusCode status operation = (false, some e) := by
  unfold validateStatusCode
  split
  · exact Or.inl rfl
  · dsimp only
    split_ifs
    · exact Or.inr ⟨_, rfl⟩
    · exact Or.inl rfl

/-- The header check's validity flag is exactly emptiness of its error
list. -/
theorem validateResponseHeaders_valid_iff (ajv : AjvFn)
    (headers : List (String × Value)) (responseSpec : ResponseObject) :
    (validateResponseHeaders ajv headers responseSpec).1 =
      (validateResponseHeaders ajv headers responseSpec).2.isEmpty := by
  unfold validateResponseHeaders
  split
  · rfl
  · rfl

/-- The body check returns either a clean verdict or a non-empty detail
list. -/
theorem validateResponseBody_shape (ajv : AjvFn) (respData : Value)
    (responseSpec : ResponseObject) :
    validateResponseBody ajv respData responseSpec = (true, none) ∨
      ∃ ds, validateResponseBody ajv respData responseSpec = (false, some ds) ∧
        ds ≠ [] := by
  unfold validateResponseBody
  split
  · exact Or.inl rfl
  · split
    · exact Or.inl rfl
    · split
      · exact Or.inl rfl
      · dsimp only
        split_ifs with h
        · refine Or.inr ⟨_, rfl, ?_⟩
          simp only [Bool.not_eq_true', List.isEmpty_eq_false] at h
          simpa using h
        · exact Or.inl rfl

/-- C3: the three checks all contribute without short-circuiting — the
verdict is failed iff at least one check produced a violation, and the
detail strings are exactly the status violations, then the header
violations, then the body violations, in that order. -/
theorem C3_checks_accumulate (ajv : AjvFn) (status : Nat)
    (respHeaders : List (String × Value)) (respData : Value)
    (operation : Operation) :
    ((validateFullResponse ajv status respHeaders respData operation).valid = false ↔
      statusViolations status operation ++
        headerViolations ajv status respHeaders operation ++
        bodyViolations ajv status respData operation ≠ []) ∧
    (validateFullResponse ajv status respHeaders respData operation).details =
      (if (statusViolations status operation ++
            headerViolations ajv status respHeaders operation ++
            bodyViolations ajv status respData operation).isEmpty then none
       else some (statusViolations status operation ++
            headerViolations ajv status respHeaders operation ++
            bodyViolations ajv status respData operation)) := by
  rcases hre : operation.responses with _ | resps
  · unfold validateFullResponse statusViolations headerViolations bodyViolations
      validateStatusCode getResponseSpec
    rw [hre]
    simp
  · unfold validateFullResponse statusViolations headerViolations bodyViolations
    rw [hre]
    dsimp only
    rcases hgs : getResponseSpec status operation with _ | responseSpec
    · rcases validateStatusCode_shape status operation with hsv | ⟨e, hsv⟩ <;>
        rw [hsv] <;> simp
    · have hhs := validateResponseHeaders_valid_iff ajv respHeaders responseSpec
      rcases validateStatusCode_shape status operation with hsv | ⟨e, hsv⟩ <;>
        rw [hsv] <;> dsimp only <;>
        rcases validateResponseBody_shape ajv respData responseSpec with
          hb | ⟨ds, hb, hds⟩ <;>
        rw [hb] <;> dsimp only <;>
        rcases hhe : (validateResponseHeaders ajv respHeaders responseSpec).2 with
          _ | ⟨e0, es⟩ <;>
        rw [hhe] at hhs <;> rw [hhs] <;> first | simp [hds] | simp

/-- A lookup misses exactly when the key is absent. -/
theorem jsLookup_eq_none_iff {β : Type} (m : List (String × β)) (k : String) :
    jsLookup m k = none ↔ k ∉ m.map Prod.fst := by
  unfold jsLookup
  constructor
  · intro h hmem
    rcases List.mem_map.mp hmem with ⟨a, ha, hk⟩
    rcases hf : m.find? (fun p => p.1 = k) with _ | p
    · rw [List.find?_eq_none] at hf
      exact hf a ha (by simp [hk])
    · rw [hf] at h
      simp at h
  · intro hmem
    rcases hf : m.find? (fun p => p.1 = k) with _ | p
    · rw [hf]
      rfl
    · have := List.find?_some hf
      have hp := List.mem_of_find?_eq_some hf
      simp at this
      exact absurd (List.mem_map.mpr ⟨p, hp, this⟩) hmem

/-- C9: the request body (and its `Content-Type` header) is attached
only for POST/PUT/PATCH; for GET or DELETE the built configuration
carries no body, its headers are exactly the caller headers plus
`Accept`, and no `Content-Type` key is present unless the caller
supplied one. -/
theorem C9_body_only_on_write_methods (baseUrl : String)
    (userHeaders : List (String × String)) (method : String)
    (operation : Operation) (pathItem : PathItem) (resolvedPath : String) :
    ((buildRequestConfig baseUrl userHeaders method operation pathItem
        resolvedPath).data ≠ none → method ∈ ["post", "put", "patch"]) ∧
    (method = "get" ∨ method = "delete" →
      (buildRequestConfig baseUrl userHeaders method operation pathItem
        resolvedPath).data = none ∧
      (buildRequestConfig baseUrl userHeaders method operation pathItem
        resolvedPath).headers =
        jsObjAssign userHeaders [("Accept", "application/json")] ∧
      ("Content-Type" ∉ userHeaders.map Prod.fst →
        jsLookup (buildRequestConfig baseUrl userHeaders method operation
          pathItem resolvedPath).headers "Content-Type" = none)) := by
  have hCT : ∀ hct : "Content-Type" ∉ userHeaders.map Prod.fst,
      jsLookup (jsObjAssign userHeaders [("Accept", "application/json")])
        "Content-Type" = none := by
    intro hct
    rw [jsLookup_eq_none_iff]
    intro hmem
    have : jsObjAssign userHeaders [("Accept", "application/json")] =
        assocSet userHeaders "Accept" "application/json" := rfl
    rw [this] at hmem
    rcases assocSet_mem_keys _ _ _ _ hmem with h1 | h2
    · exact hct h1
    · simp at h2
  unfold buildRequestConfig
  rcases hb : buildRequestBody operation with _ | bodyData
  · dsimp only
    exact ⟨fun h => absurd rfl h, fun _ => ⟨rfl, rfl, hCT⟩⟩
  · dsimp only
    by_cases hm : (["post", "put", "patch"].contains method) = true
    · rw [if_pos hm]
      refine ⟨fun _ => by simpa using hm, ?_⟩
      rintro (h | h) <;> subst h <;> simp at hm
    · rw [if_neg hm]
      exact ⟨fun h => absurd rfl h, fun _ => ⟨rfl, rfl, hCT⟩⟩

/-- C9 witness: a GET operation that declares a JSON request body is
issued with no body and no `Content-Type` header. -/
theorem C9_body_only_on_write_methods_witness :
    (buildRequestConfig "http://h" [] "get"
      ⟨none, some ⟨some [("application/json", ⟨some (.vStr "b"), none, none⟩)]⟩, none⟩
      ⟨none, none, none, none, none, none⟩ "/x").data = none ∧
    jsLookup (buildRequestConfig "http://h" [] "get"
      ⟨none, some ⟨some [("application/json", ⟨some (.vStr "b"), none, none⟩)]⟩, none⟩
      ⟨none, none, none, none, none, none⟩ "/x").headers "Content-Type" = none :=
  ⟨((C9_body_only_on_write_methods "http://h" [] "get"
      ⟨none, some ⟨some [("application/json", ⟨some (.vStr "b"), none, none⟩)]⟩, none⟩
      ⟨none, none, none, none, none, none⟩ "/x").2 (Or.inl rfl)).1,
   ((C9_body_only_on_write_methods "http://h" [] "get"
      ⟨none, some ⟨some [("application/json", ⟨some (.vStr "b"), none, none⟩)]⟩, none⟩
      ⟨none, none, none, none, none, none⟩ "/x").2 (Or.inl rfl)).2.2 (by simp)⟩

/-- Membership of a missing-header report in the declared-header loop:
present iff some declaration with that name is required and has no
received value under the lowercased name. The side condition rules out
an evaluator whose joined messages collide with the fixed report text
(real Ajv keyword messages never equal it). -/
theorem headerErrorsLoop_missing_mem (ajv : AjvFn)
    (headers : List (String × Value))
    (hajv : ∀ sch v, String.intercalate ", "
      ((ajv sch v).map (fun e => e.message)) ≠ "Required header is missing")
    (declared : List (String × HeaderObject)) (name : String) :
    (⟨name, "Required header is missing"⟩ : HeaderValidationError) ∈
        headerErrorsLoop ajv headers declared ↔
      ∃ spec, (name, spec) ∈ declared ∧ spec.required = true ∧
        headerLookup headers name = none := by
  induction declared with
  | nil => simp [headerErrorsLoop]
  | cons hdp tl ih =>
    obtain ⟨hn, hspec⟩ := hdp
    rw [headerErrorsLoop.eq_def]
    dsimp only
    split
    · rename_i hreq
      simp only [Bool.and_eq_true, Option.isNone_iff_eq_none] at hreq
      simp only [List.mem_cons, ih]
      constructor
      · rintro (heq | h)
        · simp only [HeaderValidationError.mk.injEq] at heq
          obtain ⟨h1, -⟩ := heq
          subst h1
          exact ⟨hspec, Or.inl rfl, hreq.1, hreq.2⟩
        · obtain ⟨spec, hs, hr, hl⟩ := h
          exact ⟨spec, Or.inr hs, hr, hl⟩
      · rintro ⟨spec, heq | hs, hr, hl⟩
        · simp only [Prod.mk.injEq] at heq
          obtain ⟨h1, -⟩ := heq
          subst h1
          exact Or.inl rfl
        · exact Or.inr ⟨spec, hs, hr, hl⟩
    · rename_i hreq
      rw [Bool.and_eq_true, not_and] at hreq
      split
      · rename_i v schema hv hsc
        split_ifs with herr
        · simp only [List.mem_cons, ih]
          constructor
          · rintro (heq | h)
            · simp only [HeaderValidationError.mk.injEq] at heq
              exact absurd heq.2.symm (hajv schema v)
            · obtain ⟨spec, hs, hr, hl⟩ := h
              exact ⟨spec, Or.inr hs, hr, hl⟩
          · rintro ⟨spec, heq | hs, hr, hl⟩
            · simp only [Prod.mk.injEq] at heq
              obtain ⟨h1, -⟩ := heq
              subst h1
              rw [hl] at hv
              cases hv
            · exact Or.inr ⟨spec, hs, hr, hl⟩
        · rw [ih]
          constructor
          · rintro ⟨spec, hs, hr, hl⟩
            exact ⟨spec, List.mem_cons_of_mem _ hs, hr, hl⟩
          · rintro ⟨spec, hs, hr, hl⟩
            rcases List.mem_cons.mp hs with heq | hs'
            · simp only [Prod.mk.injEq] at heq
              obtain ⟨h1, -⟩ := heq
              subst h1
              rw [hl] at hv
              cases hv
            · exact ⟨spec, hs', hr, hl⟩
      · rename_i hcatch
        rw [ih]
        constructor
        · rintro ⟨spec, hs, hr, hl⟩
          exact ⟨spec, List.mem_cons_of_mem _ hs, hr, hl⟩
        · rintro ⟨spec, hs, hr, hl⟩
          rcases List.mem_cons.mp hs with heq | hs'
          · simp only [Prod.mk.injEq] at heq
            obtain ⟨h1, h2⟩ := heq
            subst h1 h2
            rcases hv : headerLookup headers name with _ | v
            · exact absurd (by simp [hv]) (hreq hr)
            · rw [hl] at hv
              cases hv
          · exact ⟨spec, hs', hr, hl⟩

/-- C10: header conformance looks received headers up under the
lowercased declared name — declarations differing only in case inspect
the same received value — and a required header is reported missing
exactly when no value exists under the lowercase form of its declared
name. -/
theorem C10_header_lookup_lowercased (ajv : AjvFn)
    (headers : List (String × Value)) (responseSpec : ResponseObject)
    (declared : List (String × HeaderObject))
    (hd : responseSpec.headers = some declared)
    (hajv : ∀ sch v, String.intercalate ", "
      ((ajv sch v).map (fun e => e.message)) ≠ "Required header is missing") :
    (∀ n₁ n₂, jsToLowerCase n₁ = jsToLowerCase n₂ →
      headerLookup headers n₁ = headerLookup headers n₂) ∧
    (∀ name, (⟨name, "Required header is missing"⟩ : HeaderValidationError) ∈
        (validateResponseHeaders ajv headers responseSpec).2 ↔
      ∃ spec, (name, spec) ∈ declared ∧ spec.required = true ∧
        headerLookup headers name = none) := by
  constructor
  · intro n₁ n₂ h
    unfold headerLookup
    rw [h]
  · intro name
    unfold validateResponseHeaders
    rw [hd]
    exact headerErrorsLoop_missing_mem ajv headers hajv declared name

/-- C10 witness: declarations `X-Token` (present as `x-token`) and
`X-Missing` (absent), both required, under a trivially clean evaluator:
only `X-Missing` is reported missing. -/
theorem C10_header_lookup_lowercased_witness :
    ((⟨"X-Missing", "Required header is missing"⟩ : HeaderValidationError) ∈
      (validateResponseHeaders (fun _ _ => []) [("x-token", .vStr "t")]
        ⟨some [("X-Token", ⟨true, none⟩), ("X-Missing", ⟨true, none⟩)], none⟩).2) ∧
    ¬((⟨"X-Token", "Required header is missing"⟩ : HeaderValidationError) ∈
      (validateResponseHeaders (fun _ _ => []) [("x-token", .vStr "t")]
        ⟨some [("X-Token", ⟨true, none⟩), ("X-Missing", ⟨true, none⟩)], none⟩).2) := by
  have hajv : ∀ sch v, String.intercalate ", "
      (((fun (_ : Schema) (_ : Value) => ([] : List AjvError)) sch v).map
        (fun e => e.message)) ≠ "Required header is missing" := by
    intro sch v
    simp [String.intercalate]
  have hlmiss : headerLookup [("x-token", .vStr "t")] "X-Missing" = none := rfl
  have hltok : headerLookup [("x-token", .vStr "t")] "X-Token" =
      some (.vStr "t") := rfl
  constructor
  · exact ((C10_header_lookup_lowercased (fun _ _ => []) [("x-token", .vStr "t")]
      ⟨some [("X-Token", ⟨true, none⟩), ("X-Missing", ⟨true, none⟩)], none⟩
      [("X-Token", ⟨true, none⟩), ("X-Missing", ⟨true, none⟩)] rfl hajv).2
      "X-Missing").mpr
      ⟨⟨true, none⟩, by simp, rfl, hlmiss⟩
  · intro hmem
    obtain ⟨spec, hs, -, hl⟩ := ((C10_header_lookup_lowercased (fun _ _ => [])
      [("x-token", .vStr "t")]
      ⟨some [("X-Token", ⟨true, none⟩), ("X-Missing", ⟨true, none⟩)], none⟩
      [("X-Token", ⟨true, none⟩), ("X-Missing", ⟨true, none⟩)] rfl hajv).2
      "X-Token").mp hmem
    rw [hltok] at hl
    cases hl

end OpenApiAutoValidator
